import Mathlib

/-! Shallow embedding of the concurrent photo-filter engine found in
`prueba.py` and `prueba2.py`: the Python path helpers used to derive output
file names, the opaque per-task image operation `process_image`, the
sequential / thread-pool / actor-pool execution strategies, the shared
counter and the counting-semaphore gate, and the speedup / efficiency
metric computations.  Filesystem and PIL effects are abstracted into an
explicit environment so that the pure control flow of the Python code is
kept exactly. -/

namespace PhotoFilter

/-! ## Python path helpers (`os.path`) -/

/-- Characters of the text after the last `/`, accumulating the current
segment; helper for `basename`. -/
def basenameAux (cur : List Char) : List Char → List Char
  | [] => cur
  | c :: cs => if c = '/' then basenameAux [] cs else basenameAux (cur ++ [c]) cs

/-- Model of `os.path.basename` (posix): the final path component, i.e. the
text after the last `/`. -/
def basename (s : String) : String := ⟨basenameAux [] s.data⟩

/-- Index of the last `.` in a character list, if any; helper for
`splitext`. -/
def lastDotIdx (cs : List Char) : Option ℕ :=
  match cs.reverse.findIdx? (fun c => c = '.') with
  | some k => some (cs.length - 1 - k)
  | none => none

/-- Model of `os.path.splitext` applied to a bare file name: split at the
last dot, except that a name consisting only of leading dots before that
dot (such as `.bashrc`) is not split. -/
def splitext (s : String) : String × String :=
  match lastDotIdx s.data with
  | none => (s, "")
  | some i =>
    if (s.data.take i).all (fun c => c = '.') then (s, "")
    else (⟨s.data.take i⟩, ⟨s.data.drop i⟩)

/-- Model of `os.path.join` (posix) for two components: an absolute second
component wins; otherwise the parts are glued with `/` unless the first
part is empty or already ends in `/`. -/
def pyJoin (a b : String) : String :=
  if b.data.head? = some '/' then b
  else if a.data = [] ∨ a.data.getLast? = some '/' then a ++ b
  else a ++ "/" ++ b

/-! ## PIL image model -/

/-- Abstract PIL image: an opaque pixel payload, the current mode (changed
by `convert`), and the list of point filters applied so far (appended to by
`Image.filter`). -/
structure PILImage where
  data : ℕ
  mode : String
  applied : List String
deriving DecidableEq

/-- Model of `Image.convert(mode)`. -/
def convertImg (img : PILImage) (m : String) : PILImage :=
  { img with mode := m }

/-- Model of `Image.filter(f)`: records the applied filter. -/
def filterImg (img : PILImage) (f : String) : PILImage :=
  { img with applied := img.applied ++ [f] }

/-- The filter-dispatch `if`/`elif` chain of `process_image`
(`prueba.py` lines 134-147, `prueba2.py` lines 137-150).  A name that is
none of the seven recognized filters leaves the image unchanged. -/
def applySelectedFilter (selected_filter : String) (img : PILImage) : PILImage :=
  if selected_filter = "Desenfoque" then filterImg img ("BLUR")
  else if selected_filter = "Grises" then convertImg img ("L")
  else if selected_filter = "Contorno" then filterImg img ("CONTOUR")
  else if selected_filter = "Emboss" then filterImg img ("EMBOSS")
  else if selected_filter = "Sharpen" then filterImg img ("SHARPEN")
  else if selected_filter = "Detalles" then filterImg img ("DETAIL")
  else if selected_filter = "Bordes" then filterImg img ("FIND_EDGES")
  else img

/-- The seven filter names offered by both GUIs (`filter_options`). -/
def filterOptions : List String :=
  ["Desenfoque", "Grises", "Contorno", "Emboss", "Sharpen", "Detalles", "Bordes"]

/-! ## Effect environment -/

/-- Environment abstracting the two fallible filesystem/PIL steps of
`process_image`: `Image.open(path).convert("RGB")` (which raises on a
missing or corrupt file) and `img.save(output_path)` (which raises on an
unwritable destination).  `Except.error e` models a raised exception whose
`str` is `e`. -/
structure ImgEnv where
  openImage : String → Except String PILImage
  saveImage : PILImage → String → Except String Unit

/-! ## FilterResult and process_image -/

/-- The result dictionaries returned by `process_image`: `status` is
`"OK"` or `"ERROR"`; `output`, `filter` and `method` are `none` when the
corresponding key is absent from the dictionary. -/
structure FilterResult where
  status : String
  original : String
  output : Option String
  message : String
  filter : Option String
  method : Option String
deriving DecidableEq

/-- The output file name `f"{name}_{method}{ext}"` built by `process_image`
from the basename of the input path (`prueba2.py` lines 152-155). -/
def output_filename (image_path method : String) : String :=
  (splitext (basename image_path)).1 ++ "_" ++ method ++ (splitext (basename image_path)).2

/-- The output path `os.path.join(output_folder, output_filename)`
(`prueba2.py` line 156). -/
def output_path (output_folder image_path method : String) : String :=
  pyJoin output_folder (output_filename image_path method)

/-- `process_image` of `prueba2.py` (lines 125-173): takes the task tuple
`(image_path, selected_filter, output_folder, method)`; converts to RGB,
applies the dispatched filter, saves under
`{name}_{method}{ext}`, and converts any raised exception into an
`"ERROR"` dictionary carrying `f"Error en {basename}: {e}"`. -/
def process_image (env : ImgEnv) (args : String × String × String × String) : FilterResult :=
  let image_path := args.1
  let selected_filter := args.2.1
  let output_folder := args.2.2.1
  let method := args.2.2.2
  match env.openImage image_path with
  | Except.error e =>
    { status := "ERROR", original := image_path, output := none,
      message := "Error en " ++ basename image_path ++ ": " ++ e,
      filter := none, method := some method }
  | Except.ok img0 =>
    let img := applySelectedFilter selected_filter (convertImg img0 ("RGB"))
    let base := basename image_path
    let out := output_path output_folder image_path method
    match env.saveImage img out with
    | Except.error e =>
      { status := "ERROR", original := image_path, output := none,
        message := "Error en " ++ basename image_path ++ ": " ++ e,
        filter := none, method := some method }
    | Except.ok _ =>
      { status := "OK", original := image_path, output := some out,
        message := "Procesado: " ++ base ++ " (" ++ method ++ ")",
        filter := some selected_filter, method := some method }

/-- `process_image` of `prueba.py` (lines 122-159): same control flow but
the task tuple has no `method` component; the name tag embedded in the
output file name is `selected_filter.lower()` and the result dictionaries
carry no `method` key. -/
def process_imageV1 (env : ImgEnv) (args : String × String × String) : FilterResult :=
  let image_path := args.1
  let selected_filter := args.2.1
  let output_folder := args.2.2
  match env.openImage image_path with
  | Except.error e =>
    { status := "ERROR", original := image_path, output := none,
      message := "Error en " ++ basename image_path ++ ": " ++ e,
      filter := none, method := none }
  | Except.ok img0 =>
    let img := applySelectedFilter selected_filter (convertImg img0 ("RGB"))
    let base := basename image_path
    let out := output_path output_folder image_path selected_filter.toLower
    match env.saveImage img out with
    | Except.error e =>
      { status := "ERROR", original := image_path, output := none,
        message := "Error en " ++ basename image_path ++ ": " ++ e,
        filter := none, method := none }
    | Except.ok _ =>
      { status := "OK", original := image_path, output := some out,
        message := "Procesado: " ++ base,
        filter := some selected_filter, method := none }

/-! ## Execution strategies -/

/-- `process_image_sequential` of `prueba2.py` (lines 81-91): one task per
path, executed in order on the calling thread, results appended in
submission order (elapsed-time bookkeeping omitted). -/
def process_image_sequential (env : ImgEnv) (image_paths : List String)
    (selected_filter output_folder : String) : List FilterResult :=
  image_paths.map (fun p => process_image env (p, selected_filter, output_folder, "secuencial"))

/-- `process_image_sequential` of `prueba.py` (lines 79-89), built on the
three-component task tuples. -/
def process_image_sequentialV1 (env : ImgEnv) (image_paths : List String)
    (selected_filter output_folder : String) : List FilterResult :=
  image_paths.map (fun p => process_imageV1 env (p, selected_filter, output_folder))

/-- Round-robin distribution loop of `process_image_actor`
(`for i, image_path in enumerate(image_paths): actors[i % num_actors].submit(task)`,
`prueba2.py` lines 107-110): the private FIFO inbox of actor `a` holds, in
submission order, exactly the paths whose index is congruent to `a`. -/
def actorInbox (num_actors a : ℕ) (image_paths : List String) : List String :=
  ((image_paths.enum).filter (fun ip => ip.1 % num_actors = a)).map Prod.snd

/-- Results pushed to the shared outbox by actor `a`
(`ProcessingActor._run`, `prueba2.py` lines 65-72): each inbox task is run
through `process_image` with the `"actor"` tag, in inbox order. -/
def actorOutputs (env : ImgEnv) (selected_filter output_folder : String)
    (num_actors a : ℕ) (image_paths : List String) : List FilterResult :=
  (actorInbox num_actors a image_paths).map
    (fun p => process_image env (p, selected_filter, output_folder, "actor"))

/-- `run_multithread_version` of `prueba2.py` (lines 591-613): the pool
runs one `process_image` per task and `as_completed` hands the results
back in completion order `completed`, which is some permutation of the
submitted paths. -/
def run_multithread_version (env : ImgEnv) (selected_filter output_folder : String)
    (completed : List String) : List FilterResult :=
  completed.map (fun p => process_image env (p, selected_filter, output_folder, "multihilo"))

/-! ## SharedCounter -/

/-- `SharedCounter` (`prueba2.py` lines 19-32): a lock-protected integer
starting at 0.  The lock makes `increment` and `get_value` atomic, so any
concurrent history is some serialization of whole operations. -/
structure SharedCounter where
  value : ℕ
deriving DecidableEq

/-- `increment`: atomically adds 1 and returns the new value. -/
def SharedCounter.increment (s : SharedCounter) : SharedCounter × ℕ :=
  (⟨s.value + 1⟩, s.value + 1)

/-- `get_value`: returns the current value. -/
def SharedCounter.get_value (s : SharedCounter) : ℕ := s.value

/-- State after `n` completed `increment` operations (any serialization of
`n` concurrent increments, thanks to the lock). -/
def SharedCounter.runIncrements : SharedCounter → ℕ → SharedCounter
  | s, 0 => s
  | s, n + 1 => SharedCounter.runIncrements (s.increment).1 n

/-! ## ProcessingSemaphore (the bounded gate) -/

/-- One observable gate operation: a completed `acquire()` or a completed
`release()` of `ProcessingSemaphore` (`prueba2.py` lines 34-53). -/
inductive GateOp where
  | acquire
  | release
deriving DecidableEq

/-- Gate state: `avail` is the internal `threading.Semaphore` counter
(remaining admissions) and `active` is the `active_processes` tally
returned by `get_active()`.  `active` is an integer because the Python
counter is not intrinsically bounded below. -/
structure GateState where
  avail : ℕ
  active : ℤ
deriving DecidableEq

/-- Initial state of `ProcessingSemaphore(max_concurrent=capacity)`. -/
def gateInit (capacity : ℕ) : GateState := ⟨capacity, 0⟩

/-- One whole gate operation.  `acquire` blocks while `avail = 0` (modeled
as `none`: the operation cannot complete in this state); once admitted it
decrements the semaphore and increments `active_processes`.  `release`
decrements `active_processes` and returns the permit. -/
def gateStep (s : GateState) : GateOp → Option GateState
  | GateOp.acquire => if 0 < s.avail then some ⟨s.avail - 1, s.active + 1⟩ else none
  | GateOp.release => some ⟨s.avail + 1, s.active - 1⟩

/-- Run a sequence of completed gate operations from a state. -/
def gateRunFrom : GateState → List GateOp → Option GateState
  | s, [] => some s
  | s, op :: ops =>
    match gateStep s op with
    | some s2 => gateRunFrom s2 ops
    | none => none

/-- An operation sequence in which every `release` follows a matching
earlier successful `acquire`: the running balance of acquires over
releases never goes negative.  `d` is the current balance. -/
def balancedFrom : ℕ → List GateOp → Bool
  | _, [] => true
  | d, GateOp.acquire :: ops => balancedFrom (d + 1) ops
  | d, GateOp.release :: ops => if d = 0 then false else balancedFrom (d - 1) ops

/-! ## Scoped acquire/release (`process_with_semaphore`) -/

/-- Outcome of a Python call: a returned value or a raised exception. -/
inductive PyResult (α : Type) where
  | ret (a : α)
  | exn (msg : String)
deriving DecidableEq

/-- A computation together with the trace of gate operations it performs. -/
abbrev TraceM (α : Type) : Type := List GateOp × PyResult α

/-- `self.semaphore.acquire()` as a traced step. -/
def semaphoreAcquire : TraceM Unit := ([GateOp.acquire], PyResult.ret ())

/-- `self.semaphore.release()` as a traced step. -/
def semaphoreRelease : TraceM Unit := ([GateOp.release], PyResult.ret ())

/-- Python sequencing: if the first statement raises, the second never
runs. -/
def pySeq {α : Type} (m1 : TraceM Unit) (m2 : TraceM α) : TraceM α :=
  match m1 with
  | (t, PyResult.ret _) => (t ++ m2.1, m2.2)
  | (t, PyResult.exn e) => (t, PyResult.exn e)

/-- Python `try ... finally`: the finalizer runs whether the body returns
or raises; the body's outcome is propagated (a raising finalizer would
replace it). -/
def pyTryFinally {α : Type} (body : TraceM α) (finalizer : TraceM Unit) : TraceM α :=
  match finalizer with
  | (t2, PyResult.ret _) => (body.1 ++ t2, body.2)
  | (t2, PyResult.exn e) => (body.1 ++ t2, PyResult.exn e)

/-- `process_with_semaphore` (`prueba2.py` lines 597-603 and `prueba.py`
lines 515-522): acquire the gate, run the guarded body (which itself
touches no gate), and release in a `finally` block.  `body` is the outcome
of `process_image(task)`, which may in principle return or raise. -/
def process_with_semaphore {α : Type} (body : PyResult α) : TraceM α :=
  pySeq semaphoreAcquire (pyTryFinally ([], body) semaphoreRelease)

/-! ## Benchmark metrics -/

/-- Arithmetic mean of a timing history,
`sum(history) / len(history)`. -/
def mean (xs : List ℚ) : ℚ := xs.sum / (xs.length : ℚ)

/-- Speedup/efficiency computation of `update_comparison_chart` in
`prueba.py` (lines 669-680): runs only when both histories are non-empty,
divides the history means, guards against a zero parallel mean, and
derives the "parallel efficiency" by dividing the speedup by
`theoretical_max = len(self.image_paths)` — the number of loaded images —
with a zero fallback. -/
def update_comparison_chart (metrics_sequential metrics_parallel_process : List ℚ)
    (num_image_paths : ℕ) : Option (ℚ × ℚ) :=
  if metrics_sequential ≠ [] ∧ metrics_parallel_process ≠ [] then
    let seq_avg := mean metrics_sequential
    let par_avg := mean metrics_parallel_process
    if 0 < par_avg then
      let speedup := seq_avg / par_avg
      let theoretical_max : ℚ := (num_image_paths : ℚ)
      let efficiency := if 0 < num_image_paths then speedup / theoretical_max * 100 else 0
      some (speedup, efficiency)
    else none
  else none

/-- Speedup/efficiency computation of `update_metrics` in `prueba2.py`
(lines 483-497, same formulas in `finish_processing` lines 637-642):
guarded by a positive parallel time, `speedup = seq / par` and
`efficiency = speedup / 4 * 100`, where 4 is the configured worker count
(`ThreadPoolExecutor(max_workers=4)` / `num_actors=4`). -/
def update_metrics (seq_time par_time : ℚ) : Option (ℚ × ℚ) :=
  if 0 < par_time then
    let speedup := seq_time / par_time
    some (speedup, speedup / 4 * 100)
  else none

/-! ## Concrete environments used by the witnesses -/

/-- Environment in which every open and save succeeds. -/
def envAllOk : ImgEnv :=
  { openImage := fun _ => Except.ok { data := 0, mode := "raw", applied := [] },
    saveImage := fun _ _ => Except.ok () }

/-- Environment in which every open raises. -/
def envOpenFails : ImgEnv :=
  { openImage := fun _ => Except.error ("No such file or directory"),
    saveImage := fun _ _ => Except.ok () }

/-! ## Helper lemmas -/

theorem process_image_original (env : ImgEnv) (p f d m : String) :
    (process_image env (p, f, d, m)).original = p := by
  cases hop : env.openImage p with
  | error e => simp [process_image, hop]
  | ok img0 =>
    cases hsv : env.saveImage (applySelectedFilter f (convertImg img0 ("RGB")))
        (output_path d p m) with
    | error e => simp [process_image, hop, hsv]
    | ok u => simp [process_image, hop, hsv]

theorem process_imageV1_original (env : ImgEnv) (p f d : String) :
    (process_imageV1 env (p, f, d)).original = p := by
  cases hop : env.openImage p with
  | error e => simp [process_imageV1, hop]
  | ok img0 =>
    cases hsv : env.saveImage (applySelectedFilter f (convertImg img0 ("RGB")))
        (output_path d p f.toLower) with
    | error e => simp [process_imageV1, hop, hsv]
    | ok u => simp [process_imageV1, hop, hsv]

theorem process_image_status_cases (env : ImgEnv) (p f d m : String) :
    (process_image env (p, f, d, m)).status = "OK" ∨
    (process_image env (p, f, d, m)).status = "ERROR" := by
  cases hop : env.openImage p with
  | error e => right; simp [process_image, hop]
  | ok img0 =>
    cases hsv : env.saveImage (applySelectedFilter f (convertImg img0 ("RGB")))
        (output_path d p m) with
    | error e => right; simp [process_image, hop, hsv]
    | ok u => left; simp [process_image, hop, hsv]

theorem process_image_ok_output (env : ImgEnv) (p f d m : String)
    (h : (process_image env (p, f, d, m)).status = "OK") :
    (process_image env (p, f, d, m)).output = some (output_path d p m) := by
  cases hop : env.openImage p with
  | error e => exfalso; simp [process_image, hop] at h
  | ok img0 =>
    cases hsv : env.saveImage (applySelectedFilter f (convertImg img0 ("RGB")))
        (output_path d p m) with
    | error e => exfalso; simp [process_image, hop, hsv] at h
    | ok u => simp [process_image, hop, hsv]

theorem process_imageV1_ok_output (env : ImgEnv) (p f d : String)
    (h : (process_imageV1 env (p, f, d)).status = "OK") :
    (process_imageV1 env (p, f, d)).output = some (output_path d p f.toLower) := by
  cases hop : env.openImage p with
  | error e => exfalso; simp [process_imageV1, hop] at h
  | ok img0 =>
    cases hsv : env.saveImage (applySelectedFilter f (convertImg img0 ("RGB")))
        (output_path d p f.toLower) with
    | error e => exfalso; simp [process_imageV1, hop, hsv] at h
    | ok u => simp [process_imageV1, hop, hsv]

/-! ## Claim theorems -/

/-- C1: `process_image` never raises past its boundary: a task whose image
cannot be opened, or whose transformed image cannot be saved, produces
exactly one `"ERROR"` result whose non-empty message mentions the image's
basename, and a failing task does not prevent sibling tasks of the same
sequential batch from producing their results (one result per path,
regardless of failures). -/
theorem process_image_isolates_failures (env : ImgEnv) (p f d m e : String)
    (hfail : env.openImage p = Except.error e ∨
      ∃ img0, env.openImage p = Except.ok img0 ∧
        env.saveImage (applySelectedFilter f (convertImg img0 ("RGB")))
          (output_path d p m) = Except.error e) :
    (process_image env (p, f, d, m)).status = "ERROR" ∧
    (process_image env (p, f, d, m)).message = "Error en " ++ basename p ++ ": " ++ e ∧
    (process_image env (p, f, d, m)).message ≠ "" ∧
    (∃ pre post, (process_image env (p, f, d, m)).message = pre ++ basename p ++ post) ∧
    ∀ paths : List String,
      (process_image_sequential env paths f d).length = paths.length := by
  have hmsg : (process_image env (p, f, d, m)).status = "ERROR" ∧
      (process_image env (p, f, d, m)).message = "Error en " ++ basename p ++ ": " ++ e := by
    rcases hfail with hop | ⟨img0, hop, hsv⟩
    · constructor
      · simp [process_image, hop]
      · simp [process_image, hop]
    · constructor
      · simp [process_image, hop, hsv]
      · simp [process_image, hop, hsv]
  refine ⟨hmsg.1, hmsg.2, ?_, ?_, ?_⟩
  · rw [hmsg.2]
    intro hcontr
    have hlen := congrArg String.length hcontr
    have h9 : ("Error en " : String).length = 9 := by decide
    have hc : (": " : String).length = 2 := by decide
    have h0 : ("" : String).length = 0 := by decide
    simp only [String.length_append, h9, hc, h0] at hlen
    omega
  · exact ⟨"Error en ", ": " ++ e, by rw [hmsg.2, String.append_assoc]⟩
  · intro paths
    unfold process_image_sequential
    exact List.length_map _ _

/-- C1 witness: a task over an environment whose `open` raises. -/
theorem process_image_isolates_failures_witness :
    (process_image envOpenFails (("fotos/gato.png"), ("Grises"), ("out"), ("secuencial"))).status
        = "ERROR" ∧
    (process_image envOpenFails (("fotos/gato.png"), ("Grises"), ("out"), ("secuencial"))).message
        = "Error en " ++ basename ("fotos/gato.png") ++ ": " ++ "No such file or directory" ∧
    (process_image envOpenFails (("fotos/gato.png"), ("Grises"), ("out"), ("secuencial"))).message
        ≠ "" ∧
    (∃ pre post,
      (process_image envOpenFails (("fotos/gato.png"), ("Grises"), ("out"), ("secuencial"))).message
        = pre ++ basename ("fotos/gato.png") ++ post) ∧
    ∀ paths : List String,
      (process_image_sequential envOpenFails paths ("Grises") ("out")).length = paths.length :=
  process_image_isolates_failures envOpenFails ("fotos/gato.png") ("Grises") ("out")
    ("secuencial") ("No such file or directory") (Or.inl rfl)

/-- C2: a successful task's output path is
`join(output_dir, name ++ "_" ++ tag ++ ext)` where `(name, ext)` splits
the original basename; in `prueba2.py` the tag is the task's `method`, in
`prueba.py` it is `selected_filter.lower()`.  Hence two successful runs of
the same task produce the identical output path. -/
theorem process_image_output_path_formula (env env2 : ImgEnv) (p f d m : String)
    (h : (process_image env (p, f, d, m)).status = "OK")
    (h2 : (process_image env2 (p, f, d, m)).status = "OK")
    (hv1 : (process_imageV1 env (p, f, d)).status = "OK") :
    (process_image env (p, f, d, m)).output = some (output_path d p m) ∧
    output_path d p m
      = pyJoin d ((splitext (basename p)).1 ++ "_" ++ m ++ (splitext (basename p)).2) ∧
    (process_image env2 (p, f, d, m)).output = (process_image env (p, f, d, m)).output ∧
    (process_imageV1 env (p, f, d)).output = some (output_path d p f.toLower) := by
  refine ⟨process_image_ok_output env p f d m h, rfl, ?_, process_imageV1_ok_output env p f d hv1⟩
  rw [process_image_ok_output env p f d m h, process_image_ok_output env2 p f d m h2]

/-- C2 witness: the all-succeeding environment, evaluated on a concrete
task. -/
theorem process_image_output_path_formula_witness :
    (process_image envAllOk (("fotos/gato.png"), ("Grises"), ("out"), ("multihilo"))).output
        = some (output_path ("out") ("fotos/gato.png") ("multihilo")) ∧
    output_path ("out") ("fotos/gato.png") ("multihilo")
      = pyJoin ("out") ((splitext (basename ("fotos/gato.png"))).1 ++ "_" ++ "multihilo"
          ++ (splitext (basename ("fotos/gato.png"))).2) ∧
    (process_image envAllOk (("fotos/gato.png"), ("Grises"), ("out"), ("multihilo"))).output
        = (process_image envAllOk (("fotos/gato.png"), ("Grises"), ("out"), ("multihilo"))).output ∧
    (process_imageV1 envAllOk (("fotos/gato.png"), ("Grises"), ("out"))).output
        = some (output_path ("out") ("fotos/gato.png") (String.toLower ("Grises"))) :=
  process_image_output_path_formula envAllOk envAllOk ("fotos/gato.png") ("Grises") ("out")
    ("multihilo") (by decide) (by decide) (by decide)

/-- C5: the sequential strategy returns exactly one result per input path,
in submission order: the i-th result's `original` field is the i-th input
path (both source variants). -/
theorem sequential_order_preserving (env : ImgEnv) (f d : String)
    (paths : List String) (i : ℕ) (h : i < paths.length)
    (h2 : i < (process_image_sequential env paths f d).length)
    (h3 : i < (process_image_sequentialV1 env paths f d).length) :
    (process_image_sequential env paths f d).length = paths.length ∧
    ((process_image_sequential env paths f d).get ⟨i, h2⟩).original = paths.get ⟨i, h⟩ ∧
    (process_image_sequentialV1 env paths f d).length = paths.length ∧
    ((process_image_sequentialV1 env paths f d).get ⟨i, h3⟩).original = paths.get ⟨i, h⟩ := by
  refine ⟨List.length_map _ _, ?_, List.length_map _ _, ?_⟩
  · unfold process_image_sequential
    rw [List.get_map]
    exact process_image_original env _ f d ("secuencial")
  · unfold process_image_sequentialV1
    rw [List.get_map]
    exact process_imageV1_original env _ f d

/-- C5 witness: a two-image batch, second position. -/
theorem sequential_order_preserving_witness :
    (process_image_sequential envAllOk [("a.png"), ("b.png")] ("Grises") ("out")).length = 2 ∧
    ((process_image_sequential envAllOk [("a.png"), ("b.png")] ("Grises") ("out")).get
        ⟨1, by decide⟩).original = ([("a.png"), ("b.png")].get ⟨1, by decide⟩ : String) ∧
    (process_image_sequentialV1 envAllOk [("a.png"), ("b.png")] ("Grises") ("out")).length = 2 ∧
    ((process_image_sequentialV1 envAllOk [("a.png"), ("b.png")] ("Grises") ("out")).get
        ⟨1, by decide⟩).original = ([("a.png"), ("b.png")].get ⟨1, by decide⟩ : String) :=
  sequential_order_preserving envAllOk ("Grises") ("out") [("a.png"), ("b.png")] 1
    (by decide) (by decide) (by decide)

/-- Value of the counter after a block of increments, generalized start. -/
theorem runIncrements_value (n : ℕ) :
    ∀ s : SharedCounter, (s.runIncrements n).value = s.value + n := by
  induction n with
  | zero => intro s; simp [SharedCounter.runIncrements]
  | succ k ih =>
    intro s
    show ((s.increment).1.runIncrements k).value = s.value + (k + 1)
    rw [ih]
    simp [SharedCounter.increment]
    omega

/-- C7: each `increment` atomically adds exactly 1 and returns the new
value, `get_value` returns the current value, and (because the lock
serializes the atomic increments) after any `n` increments complete the
counter reads exactly `n`. -/
theorem shared_counter_exact (s : SharedCounter) (n : ℕ) :
    (s.increment).2 = s.value + 1 ∧
    (s.increment).1.value = s.value + 1 ∧
    (s.increment).1.get_value = s.get_value + 1 ∧
    (SharedCounter.runIncrements ⟨0⟩ n).get_value = n := by
  refine ⟨rfl, rfl, rfl, ?_⟩
  show (SharedCounter.runIncrements ⟨0⟩ n).value = n
  rw [runIncrements_value]
  simp

/-- C10: a filter name that is none of the seven recognized options is
silently accepted: the dispatch chain leaves the image untouched (only the
RGB conversion happens), and with a readable input and writable output the
task still returns an `"OK"` result (both source variants). -/
theorem unknown_filter_silently_accepted (env : ImgEnv) (p f d m : String)
    (img0 : PILImage)
    (hf : f ∉ filterOptions)
    (hopen : env.openImage p = Except.ok img0)
    (hsave : env.saveImage (convertImg img0 ("RGB")) (output_path d p m) = Except.ok ())
    (hsaveV1 : env.saveImage (convertImg img0 ("RGB")) (output_path d p f.toLower)
        = Except.ok ()) :
    applySelectedFilter f (convertImg img0 ("RGB")) = convertImg img0 ("RGB") ∧
    (applySelectedFilter f (convertImg img0 ("RGB"))).applied = img0.applied ∧
    process_image env (p, f, d, m) =
      { status := "OK", original := p, output := some (output_path d p m),
        message := "Procesado: " ++ basename p ++ " (" ++ m ++ ")",
        filter := some f, method := some m } ∧
    process_imageV1 env (p, f, d) =
      { status := "OK", original := p, output := some (output_path d p f.toLower),
        message := "Procesado: " ++ basename p, filter := some f, method := none } := by
  simp only [filterOptions, List.mem_cons, List.not_mem_nil, or_false, not_or] at hf
  obtain ⟨n1, n2, n3, n4, n5, n6, n7⟩ := hf
  have hid : ∀ img : PILImage, applySelectedFilter f img = img := by
    intro img
    unfold applySelectedFilter
    rw [if_neg n1, if_neg n2, if_neg n3, if_neg n4, if_neg n5, if_neg n6, if_neg n7]
  refine ⟨hid _, by rw [hid]; rfl, ?_, ?_⟩
  · simp [process_image, hopen, hid, hsave]
  · simp [process_imageV1, hopen, hid, hsaveV1]

/-- C10 witness: the unrecognized filter name `"Sepia"` on a readable,
writable task. -/
theorem unknown_filter_silently_accepted_witness :
    applySelectedFilter ("Sepia") (convertImg ⟨0, "raw", []⟩ ("RGB"))
        = convertImg ⟨0, "raw", []⟩ ("RGB") ∧
    (applySelectedFilter ("Sepia") (convertImg ⟨0, "raw", []⟩ ("RGB"))).applied = [] ∧
    process_image envAllOk (("x/foto.png"), ("Sepia"), ("out"), ("multihilo")) =
      { status := "OK", original := "x/foto.png",
        output := some (output_path ("out") ("x/foto.png") ("multihilo")),
        message := "Procesado: " ++ basename ("x/foto.png") ++ " (" ++ "multihilo" ++ ")",
        filter := some "Sepia", method := some "multihilo" } ∧
    process_imageV1 envAllOk (("x/foto.png"), ("Sepia"), ("out")) =
      { status := "OK", original := "x/foto.png",
        output := some (output_path ("out") ("x/foto.png") (String.toLower ("Sepia"))),
        message := "Procesado: " ++ basename ("x/foto.png"),
        filter := some "Sepia", method := none } :=
  unknown_filter_silently_accepted envAllOk ("x/foto.png") ("Sepia") ("out") ("multihilo")
    ⟨0, "raw", []⟩ (by decide) rfl rfl rfl

/-- C8: in the ThreadPool+Gate strategy, a task execution that acquires
the gate performs exactly one `acquire` followed by exactly one `release`,
whether the guarded body returns or raises (the `finally` block runs on
every exit path), the body's outcome is propagated unchanged, and the gate
state is restored. -/
theorem semaphore_release_paired {α : Type} (body : PyResult α) (s : GateState)
    (hs : 0 < s.avail) :
    (process_with_semaphore body).1 = [GateOp.acquire, GateOp.release] ∧
    (process_with_semaphore body).1.count GateOp.acquire = 1 ∧
    (process_with_semaphore body).1.count GateOp.release = 1 ∧
    (process_with_semaphore body).2 = body ∧
    gateRunFrom s (process_with_semaphore body).1 = some s := by
  have htrace : (process_with_semaphore body).1 = [GateOp.acquire, GateOp.release] := by
    cases body <;> rfl
  have hres : (process_with_semaphore body).2 = body := by
    cases body <;> rfl
  refine ⟨htrace, ?_, ?_, hres, ?_⟩
  · rw [htrace]; decide
  · rw [htrace]; decide
  · rw [htrace]
    obtain ⟨a, b⟩ := s
    have ha : 0 < a := hs
    simp only [gateRunFrom, gateStep, if_pos ha]
    simp only [Option.some.injEq, GateState.mk.injEq]
    constructor
    · omega
    · omega

/-- C8 witness: a returning body and a raising body, gate of capacity 4. -/
theorem semaphore_release_paired_witness :
    ((process_with_semaphore (PyResult.ret (0 : ℕ))).1 = [GateOp.acquire, GateOp.release] ∧
     (process_with_semaphore (PyResult.ret (0 : ℕ))).1.count GateOp.acquire = 1 ∧
     (process_with_semaphore (PyResult.ret (0 : ℕ))).1.count GateOp.release = 1 ∧
     (process_with_semaphore (PyResult.ret (0 : ℕ))).2 = PyResult.ret 0 ∧
     gateRunFrom ⟨4, 0⟩ (process_with_semaphore (PyResult.ret (0 : ℕ))).1 = some ⟨4, 0⟩) ∧
    ((process_with_semaphore (PyResult.exn ("boom") : PyResult ℕ)).1
        = [GateOp.acquire, GateOp.release] ∧
     (process_with_semaphore (PyResult.exn ("boom") : PyResult ℕ)).1.count GateOp.acquire = 1 ∧
     (process_with_semaphore (PyResult.exn ("boom") : PyResult ℕ)).1.count GateOp.release = 1 ∧
     (process_with_semaphore (PyResult.exn ("boom") : PyResult ℕ)).2 = PyResult.exn ("boom") ∧
     gateRunFrom ⟨4, 0⟩ (process_with_semaphore (PyResult.exn ("boom") : PyResult ℕ)).1
        = some ⟨4, 0⟩) :=
  ⟨semaphore_release_paired (PyResult.ret (0 : ℕ)) ⟨4, 0⟩ (by decide),
   semaphore_release_paired (PyResult.exn ("boom") : PyResult ℕ) ⟨4, 0⟩ (by decide)⟩

/-- Invariant carried through a balanced run of gate operations: the
semaphore permits plus the active count always equal the capacity, and the
active count equals the running acquire/release balance, hence never goes
negative. -/
theorem gate_invariant_aux (cap : ℕ) :
    ∀ (ops : List GateOp) (d : ℕ) (s0 sF : GateState),
      balancedFrom d ops = true →
      (s0.avail : ℤ) + s0.active = (cap : ℤ) →
      s0.active = (d : ℤ) →
      gateRunFrom s0 ops = some sF →
      (sF.avail : ℤ) + sF.active = (cap : ℤ) ∧ 0 ≤ sF.active := by
  intro ops
  induction ops with
  | nil =>
    intro d s0 sF hbal hsum hact hrun
    simp only [gateRunFrom, Option.some.injEq] at hrun
    subst hrun
    exact ⟨hsum, by omega⟩
  | cons op ops ih =>
    intro d s0 sF hbal hsum hact hrun
    cases op with
    | acquire =>
      by_cases hav : 0 < s0.avail
      · have hstep : gateStep s0 GateOp.acquire = some ⟨s0.avail - 1, s0.active + 1⟩ := by
          simp [gateStep, hav]
        simp only [gateRunFrom, hstep] at hrun
        refine ih (d + 1) ⟨s0.avail - 1, s0.active + 1⟩ sF hbal ?_ ?_ hrun
        · show ((s0.avail - 1 : ℕ) : ℤ) + (s0.active + 1) = (cap : ℤ)
          omega
        · show s0.active + 1 = ((d + 1 : ℕ) : ℤ)
          omega
      · have hstep : gateStep s0 GateOp.acquire = none := by
          simp [gateStep, hav]
        simp only [gateRunFrom, hstep] at hrun
        exact absurd hrun (by simp)
    | release =>
      have hd : d ≠ 0 := by
        intro h0
        rw [h0] at hbal
        simp [balancedFrom] at hbal
      have hbal2 : balancedFrom (d - 1) ops = true := by
        simp only [balancedFrom, if_neg hd] at hbal
        exact hbal
      have hstep : gateStep s0 GateOp.release = some ⟨s0.avail + 1, s0.active - 1⟩ := rfl
      simp only [gateRunFrom, hstep] at hrun
      refine ih (d - 1) ⟨s0.avail + 1, s0.active - 1⟩ sF hbal2 ?_ ?_ hrun
      · show ((s0.avail + 1 : ℕ) : ℤ) + (s0.active - 1) = (cap : ℤ)
        omega
      · show s0.active - 1 = ((d - 1 : ℕ) : ℤ)
        omega

/-- C4: for a gate of capacity `C > 0` and any operation sequence in which
each `release` follows a matching successful `acquire`, every state
reachable by the gate's step relation keeps the observable active count
within `0 ≤ active ≤ C`. -/
theorem gate_active_bounded (capacity : ℕ) (ops : List GateOp) (s : GateState)
    (hcap : 0 < capacity)
    (hwf : balancedFrom 0 ops = true)
    (hrun : gateRunFrom (gateInit capacity) ops = some s) :
    0 ≤ s.active ∧ s.active ≤ (capacity : ℤ) := by
  have h := gate_invariant_aux capacity ops 0 (gateInit capacity) s hwf
    (by simp [gateInit]) (by simp [gateInit]) hrun
  refine ⟨h.2, ?_⟩
  have hsum := h.1
  omega

/-- C4 witness: capacity 2, a balanced five-operation run ending at one
active holder. -/
theorem gate_active_bounded_witness :
    balancedFrom 0
      [GateOp.acquire, GateOp.acquire, GateOp.release, GateOp.acquire, GateOp.release]
      = true ∧
    gateRunFrom (gateInit 2)
      [GateOp.acquire, GateOp.acquire, GateOp.release, GateOp.acquire, GateOp.release]
      = some ⟨1, 1⟩ ∧
    (0 ≤ (⟨1, 1⟩ : GateState).active ∧ (⟨1, 1⟩ : GateState).active ≤ (2 : ℤ)) :=
  ⟨by decide, by decide,
   gate_active_bounded 2
     [GateOp.acquire, GateOp.acquire, GateOp.release, GateOp.acquire, GateOp.release]
     ⟨1, 1⟩ (by decide) (by decide) (by decide)⟩

theorem actorInbox_length (num_actors a : ℕ) (paths : List String) :
    (actorInbox num_actors a paths).length
      = (List.range paths.length).countP (fun i => i % num_actors = a) := by
  unfold actorInbox
  rw [List.length_map, ← List.countP_eq_length_filter]
  rw [← List.enum_map_fst paths, List.countP_map]
  rfl

/-- Number of indices below `T` in the residue class of `a` modulo `A`. -/
theorem countP_range_mod (A a : ℕ) (hA : 0 < A) (ha : a < A) :
    ∀ T : ℕ, (List.range T).countP (fun i => i % A = a)
      = if a < T then (T - a - 1) / A + 1 else 0 := by
  intro T
  induction T with
  | zero => simp
  | succ T ih =>
    have hone : (List.countP (fun i => decide (i % A = a)) [T])
        = if T % A = a then 1 else 0 := by
      simp [List.countP_cons]
    rw [List.range_succ, List.countP_append, ih, hone]
    rcases Nat.lt_trichotomy T a with hTa | hTa | hTa
    · have h1 : ¬ a < T := by omega
      have h2 : ¬ a < T + 1 := by omega
      have h3 : T % A = T := Nat.mod_eq_of_lt (lt_trans hTa ha)
      rw [if_neg h1, if_neg h2, h3, if_neg (by omega : ¬ T = a)]
    · subst hTa
      have h3 : T % A = T := Nat.mod_eq_of_lt ha
      rw [if_neg (lt_irrefl T), if_pos (Nat.lt_succ_self T), h3, if_pos rfl]
      have h4 : T + 1 - T - 1 = 0 := by omega
      rw [h4, Nat.zero_div]
    · have h2 : a < T + 1 := by omega
      have hTA : T + 1 - a - 1 = T - a := by omega
      rw [if_pos hTa, if_pos h2, hTA]
      have hsd : T - a = T - a - 1 + 1 := by omega
      have hstep2 := Nat.succ_div (T - a - 1) A
      rw [← hsd] at hstep2
      rw [hstep2]
      have hiff : T % A = a ↔ A ∣ (T - a) := by
        constructor
        · intro hh
          have hmod : a ≡ T [MOD A] := by
            show a % A = T % A
            rw [Nat.mod_eq_of_lt ha, hh]
          exact (Nat.modEq_iff_dvd' (le_of_lt hTa)).1 hmod
        · intro hh
          have hmod : a ≡ T [MOD A] := (Nat.modEq_iff_dvd' (le_of_lt hTa)).2 hh
          have hmod2 : a % A = T % A := hmod
          rw [Nat.mod_eq_of_lt ha] at hmod2
          exact hmod2.symm
      by_cases hdvd : A ∣ (T - a)
      · rw [if_pos hdvd, if_pos (hiff.2 hdvd)]
      · rw [if_neg hdvd, if_neg (fun hh => hdvd (hiff.1 hh))]

/-- The per-class count lies between `⌊T/A⌋` and `⌈T/A⌉`. -/
theorem countP_range_mod_bounds (A a T : ℕ) (hA : 0 < A) (ha : a < A) :
    T / A ≤ (List.range T).countP (fun i => i % A = a) ∧
    (List.range T).countP (fun i => i % A = a) ≤ (T + A - 1) / A := by
  rw [countP_range_mod A a hA ha T]
  by_cases h : a < T
  · rw [if_pos h]
    have e1 : (T - a - 1) / A + 1 = (T - a - 1 + A) / A := (Nat.add_div_right _ hA).symm
    rw [e1]
    constructor
    · apply Nat.div_le_div_right
      omega
    · apply Nat.div_le_div_right
      omega
  · rw [if_neg h]
    constructor
    · have hlt : T < A := by omega
      rw [Nat.div_eq_of_lt hlt]
    · exact Nat.zero_le _

theorem ceil_le_floor_succ (A T : ℕ) (hA : 0 < A) :
    (T + A - 1) / A ≤ T / A + 1 := by
  have h1 : T + A - 1 ≤ T + A := by omega
  have h2 : (T + A) / A = T / A + 1 := Nat.add_div_right _ hA
  calc (T + A - 1) / A ≤ (T + A) / A := Nat.div_le_div_right h1
    _ = T / A + 1 := h2

/-- C6: the actor-pool strategy submits task `i` to actor `i mod A`, so
each of the `A` actors receives either `⌊T/A⌋` or `⌈T/A⌉` of the `T`
tasks, and per-actor loads differ by at most one. -/
theorem round_robin_distribution (paths : List String) (num_actors a : ℕ)
    (hA : 0 < num_actors) (ha : a < num_actors) :
    (∀ i (h : i < paths.length),
        paths.get ⟨i, h⟩ ∈ actorInbox num_actors (i % num_actors) paths) ∧
    ((actorInbox num_actors a paths).length = paths.length / num_actors ∨
     (actorInbox num_actors a paths).length
        = (paths.length + num_actors - 1) / num_actors) ∧
    ∀ b, b < num_actors →
      (actorInbox num_actors b paths).length
        ≤ (actorInbox num_actors a paths).length + 1 := by
  have hbounds : ∀ c, c < num_actors →
      paths.length / num_actors ≤ (actorInbox num_actors c paths).length ∧
      (actorInbox num_actors c paths).length
        ≤ (paths.length + num_actors - 1) / num_actors := by
    intro c hc
    have hb := countP_range_mod_bounds num_actors c paths.length hA hc
    rw [← actorInbox_length] at hb
    exact hb
  have hceil := ceil_le_floor_succ num_actors paths.length hA
  refine ⟨?_, ?_, ?_⟩
  · intro i h
    unfold actorInbox
    refine List.mem_map.2 ⟨(i, paths.get ⟨i, h⟩), ?_, rfl⟩
    rw [List.mem_filter]
    constructor
    · have hi : i < paths.enum.length := by
        rw [List.enum_length]
        exact h
      have hmem : paths.enum[i] ∈ paths.enum := List.getElem_mem hi
      rw [List.getElem_enum] at hmem
      rw [List.get_eq_getElem]
      exact hmem
    · simp
  · have hb := hbounds a ha
    by_cases heq : (actorInbox num_actors a paths).length = paths.length / num_actors
    · left
      exact heq
    · right
      have h1 : paths.length / num_actors < (actorInbox num_actors a paths).length :=
        lt_of_le_of_ne hb.1 (Ne.symm heq)
      exact le_antisymm hb.2 (le_trans hceil (Nat.succ_le_of_lt h1))
  · intro b hb2
    have hbb := hbounds b hb2
    have hba := hbounds a ha
    calc (actorInbox num_actors b paths).length
        ≤ (paths.length + num_actors - 1) / num_actors := hbb.2
      _ ≤ paths.length / num_actors + 1 := hceil
      _ ≤ (actorInbox num_actors a paths).length + 1 := Nat.succ_le_succ hba.1

/-- C6 witness: five tasks over two actors; actor 0 gets the ceiling
load 3. -/
theorem round_robin_distribution_witness :
    (∀ i (h : i < ([("a"), ("b"), ("c"), ("d"), ("e")] : List String).length),
        ([("a"), ("b"), ("c"), ("d"), ("e")] : List String).get ⟨i, h⟩
          ∈ actorInbox 2 (i % 2) [("a"), ("b"), ("c"), ("d"), ("e")]) ∧
    ((actorInbox 2 0 [("a"), ("b"), ("c"), ("d"), ("e")]).length
        = ([("a"), ("b"), ("c"), ("d"), ("e")] : List String).length / 2 ∨
     (actorInbox 2 0 [("a"), ("b"), ("c"), ("d"), ("e")]).length
        = (([("a"), ("b"), ("c"), ("d"), ("e")] : List String).length + 2 - 1) / 2) ∧
    ∀ b, b < 2 →
      (actorInbox 2 b [("a"), ("b"), ("c"), ("d"), ("e")]).length
        ≤ (actorInbox 2 0 [("a"), ("b"), ("c"), ("d"), ("e")]).length + 1 :=
  round_robin_distribution [("a"), ("b"), ("c"), ("d"), ("e")] 2 0 (by decide) (by decide)

theorem flatMap_congrOn {α β : Type} (l : List α) (f g : α → List β)
    (h : ∀ x ∈ l, f x = g x) : l.flatMap f = l.flatMap g := by
  induction l with
  | nil => rfl
  | cons x t ih =>
    rw [List.flatMap_cons, List.flatMap_cons, h x (List.mem_cons_self x t),
      ih (fun y hy => h y (List.mem_cons_of_mem x hy))]

theorem flatMap_const_nil {α β : Type} (l : List α) :
    l.flatMap (fun _ => ([] : List β)) = [] := by
  induction l with
  | nil => rfl
  | cons x t ih =>
    rw [List.flatMap_cons, ih]
    rfl

/-- Splitting a list into its fibers under a key function with values
below `A`, in key order, is a permutation of the list. -/
theorem partition_perm {γ : Type} (A : ℕ) (k : γ → ℕ) :
    ∀ s : List γ, (∀ x ∈ s, k x < A) →
      ((List.range A).flatMap (fun i => s.filter (fun x => k x = i))).Perm s := by
  intro s
  induction s with
  | nil =>
    intro _
    simp only [List.filter_nil]
    rw [flatMap_const_nil]
  | cons x t ih =>
    intro h
    have hc : k x < A := h x (List.mem_cons_self x t)
    have hsz : A - k x = (A - k x - 1) + 1 := by omega
    have hrange : List.range A
        = List.range' 0 (k x) ++ (k x :: List.range' (k x + 1) (A - k x - 1)) := by
      rw [List.range_eq_range']
      have h1 : List.range' 0 A = List.range' 0 (A - k x + k x) := by
        congr 1
        omega
      rw [h1, ← List.range'_append 0 (k x) (A - k x) 1]
      congr 1
      have h3 : 0 + 1 * k x = k x := by ring
      rw [h3, hsz, List.range'_succ]
      simp
    have hfilter_ne : ∀ i : ℕ, i ≠ k x →
        (x :: t).filter (fun y => k y = i) = t.filter (fun y => k y = i) := by
      intro i hi
      rw [List.filter_cons]
      have hne : ¬ (k x = i) := fun hh => hi hh.symm
      simp [hne]
    have hfilter_eq : (x :: t).filter (fun y => k y = k x)
        = x :: t.filter (fun y => k y = k x) := by
      rw [List.filter_cons]
      simp
    rw [hrange, List.flatMap_append, List.flatMap_cons]
    have hleft : (List.range' 0 (k x)).flatMap (fun i => (x :: t).filter (fun y => k y = i))
        = (List.range' 0 (k x)).flatMap (fun i => t.filter (fun y => k y = i)) := by
      apply flatMap_congrOn
      intro i hi
      apply hfilter_ne
      have := List.mem_range'_1.1 hi
      omega
    have hright : (List.range' (k x + 1) (A - k x - 1)).flatMap
          (fun i => (x :: t).filter (fun y => k y = i))
        = (List.range' (k x + 1) (A - k x - 1)).flatMap
            (fun i => t.filter (fun y => k y = i)) := by
      apply flatMap_congrOn
      intro i hi
      apply hfilter_ne
      have := List.mem_range'_1.1 hi
      omega
    rw [hleft, hright, hfilter_eq, List.cons_append]
    refine List.Perm.trans List.perm_middle ?_
    apply List.Perm.cons
    have hjoin : (List.range A).flatMap (fun i => t.filter (fun y => k y = i))
        = (List.range' 0 (k x)).flatMap (fun i => t.filter (fun y => k y = i))
          ++ (t.filter (fun y => k y = k x)
              ++ (List.range' (k x + 1) (A - k x - 1)).flatMap
                  (fun i => t.filter (fun y => k y = i))) := by
      rw [hrange, List.flatMap_append, List.flatMap_cons]
    rw [← hjoin]
    exact ih (fun y hy => h y (List.mem_cons_of_mem x hy))

/-- The round-robin inboxes of the actor pool partition the submitted
paths: their concatenation is a permutation of the input list. -/
theorem actorInbox_join_perm (num_actors : ℕ) (hA : 0 < num_actors)
    (paths : List String) :
    ((List.range num_actors).flatMap
        (fun i => actorInbox num_actors i paths)).Perm paths := by
  have hperm := partition_perm num_actors (fun ip : ℕ × String => ip.1 % num_actors)
    paths.enum (fun x _ => Nat.mod_lt _ hA)
  have hswap : (List.range num_actors).flatMap (fun i => actorInbox num_actors i paths)
      = ((List.range num_actors).flatMap
          (fun i => paths.enum.filter (fun ip => ip.1 % num_actors = i))).map Prod.snd := by
    unfold actorInbox
    rw [List.map_flatMap]
  rw [hswap]
  have hres := hperm.map Prod.snd
  rw [List.enum_map_snd] at hres
  exact hres

/-- Mapping a batch through `process_image` and projecting the `original`
field recovers the batch. -/
theorem map_original_process (env : ImgEnv) (f d m : String) (l : List String) :
    (l.map (fun p => process_image env (p, f, d, m))).map FilterResult.original = l := by
  calc (l.map (fun p => process_image env (p, f, d, m))).map FilterResult.original
      = l.map (fun p => (process_image env (p, f, d, m)).original) := by
        rw [List.map_map]
        rfl
    _ = l.map id := List.map_congr_left (fun p _ => process_image_original env p f d m)
    _ = l := List.map_id l

/-- C9: every strategy returns one result per task — sequential exactly in
order, thread-pool in completion order (a permutation of submissions),
actor-pool as any interleaving of the per-actor outputs — and in each case
the multiset of `original` paths in the results equals the multiset of
submitted paths. -/
theorem strategies_preserve_cardinality (env : ImgEnv) (f d : String)
    (paths completed : List String) (num_actors : ℕ) (outbox : List FilterResult)
    (hA : 0 < num_actors)
    (hcompleted : completed.Perm paths)
    (houtbox : outbox.Perm ((List.range num_actors).flatMap
        (fun i => actorOutputs env f d num_actors i paths))) :
    ((process_image_sequential env paths f d).length = paths.length ∧
      (process_image_sequential env paths f d).map FilterResult.original = paths) ∧
    ((run_multithread_version env f d completed).length = paths.length ∧
      ((run_multithread_version env f d completed).map FilterResult.original).Perm paths) ∧
    (outbox.length = paths.length ∧
      (outbox.map FilterResult.original).Perm paths) := by
  have hjoin := actorInbox_join_perm num_actors hA paths
  have heq : (List.range num_actors).flatMap (fun i => actorOutputs env f d num_actors i paths)
      = ((List.range num_actors).flatMap (fun i => actorInbox num_actors i paths)).map
          (fun p => process_image env (p, f, d, ("actor"))) := by
    unfold actorOutputs
    rw [List.map_flatMap]
  have houtbox2 : outbox.Perm (((List.range num_actors).flatMap
      (fun i => actorInbox num_actors i paths)).map
        (fun p => process_image env (p, f, d, ("actor")))) := heq ▸ houtbox
  refine ⟨⟨List.length_map _ _, map_original_process env f d ("secuencial") paths⟩,
    ⟨?_, ?_⟩, ⟨?_, ?_⟩⟩
  · unfold run_multithread_version
    rw [List.length_map]
    exact hcompleted.length_eq
  · unfold run_multithread_version
    rw [map_original_process env f d ("multihilo") completed]
    exact hcompleted
  · have h1 := houtbox2.length_eq
    rw [List.length_map] at h1
    rw [h1, hjoin.length_eq]
  · have h2 := houtbox2.map FilterResult.original
    rw [map_original_process env f d ("actor") _] at h2
    exact h2.trans hjoin

/-- C9 witness: two tasks, thread-pool completing in reverse order, two
actors with the outbox equal to the concatenated actor outputs. -/
theorem strategies_preserve_cardinality_witness :
    ((process_image_sequential envAllOk [("a.png"), ("b.png")] ("Grises") ("out")).length
        = ([("a.png"), ("b.png")] : List String).length ∧
      (process_image_sequential envAllOk [("a.png"), ("b.png")] ("Grises") ("out")).map
          FilterResult.original = [("a.png"), ("b.png")]) ∧
    ((run_multithread_version envAllOk ("Grises") ("out") [("b.png"), ("a.png")]).length
        = ([("a.png"), ("b.png")] : List String).length ∧
      ((run_multithread_version envAllOk ("Grises") ("out") [("b.png"), ("a.png")]).map
          FilterResult.original).Perm [("a.png"), ("b.png")]) ∧
    (((List.range 2).flatMap
        (fun i => actorOutputs envAllOk ("Grises") ("out") 2 i [("a.png"), ("b.png")])).length
        = ([("a.png"), ("b.png")] : List String).length ∧
      (((List.range 2).flatMap
          (fun i => actorOutputs envAllOk ("Grises") ("out") 2 i [("a.png"), ("b.png")])).map
          FilterResult.original).Perm [("a.png"), ("b.png")]) :=
  strategies_preserve_cardinality envAllOk ("Grises") ("out") [("a.png"), ("b.png")]
    [("b.png"), ("a.png")] 2
    ((List.range 2).flatMap
      (fun i => actorOutputs envAllOk ("Grises") ("out") 2 i [("a.png"), ("b.png")]))
    (by decide) (by decide) (List.Perm.refl _)

/-- C3 counterexample: the efficiency reported by `prueba.py`'s
`update_comparison_chart` is not `speedup / worker_count * 100` for the
configured worker count 4: with sequential history `[2]`, process-pool
history `[1/2]` (speedup 4) and 8 loaded images, the code reports
efficiency `4 / 8 * 100 = 50`, while the claimed formula gives
`4 / 4 * 100 = 100`. -/
theorem chart_efficiency_counterexample :
    update_comparison_chart [2] [1/2] 8 = some (4, 50) ∧
    (4 : ℚ) / 4 * 100 = 100 ∧
    (50 : ℚ) ≠ 100 := by
  refine ⟨?_, by norm_num, by norm_num⟩
  simp only [update_comparison_chart, mean]
  norm_num

/-- C3 (amended): `prueba.py`'s chart computes
`speedup = mean(seq)/mean(par)` and divides the efficiency by the number
of loaded images; `prueba2.py`'s `update_metrics` computes
`speedup = seq/par` from the recorded times and `efficiency =
speedup / 4 * 100` with worker count 4 (giving 4.0 and 100.0 on the
2.0 / 0.5 example); both guard their divisions, returning nothing when a
history is empty or the parallel mean/time is not positive. -/
theorem speedup_efficiency_formulas (seqH parH : List ℚ) (n : ℕ) (s p : ℚ)
    (h1 : seqH ≠ []) (h2 : parH ≠ []) (h3 : 0 < mean parH) (h4 : 0 < n)
    (hp : 0 < p) :
    update_comparison_chart seqH parH n
      = some (mean seqH / mean parH, mean seqH / mean parH / (n : ℚ) * 100) ∧
    update_metrics s p = some (s / p, s / p / 4 * 100) ∧
    update_metrics 2 (1/2) = some (4, 100) ∧
    (∀ q : ℚ, update_metrics q 0 = none) ∧
    (∀ l : List ℚ, ∀ m2 : ℕ, update_comparison_chart [] l m2 = none ∧
      update_comparison_chart l [] m2 = none) ∧
    (∀ l1 l2 : List ℚ, ∀ m2 : ℕ, mean l2 = 0 →
      update_comparison_chart l1 l2 m2 = none) := by
  refine ⟨?_, ?_, ?_, ?_, ?_, ?_⟩
  · simp only [update_comparison_chart]
    rw [if_pos ⟨h1, h2⟩, if_pos h3, if_pos h4]
  · simp only [update_metrics]
    rw [if_pos hp]
  · simp only [update_metrics]
    rw [if_pos (by norm_num : (0 : ℚ) < 1/2)]
    norm_num
  · intro q
    simp only [update_metrics]
    rw [if_neg (lt_irrefl (0 : ℚ))]
  · intro l m2
    constructor
    · simp only [update_comparison_chart]
      rw [if_neg (by simp)]
    · simp only [update_comparison_chart]
      rw [if_neg (by simp)]
  · intro l1 l2 m2 hz
    simp only [update_comparison_chart]
    by_cases hc : l1 ≠ [] ∧ l2 ≠ []
    · rw [if_pos hc, if_neg (by rw [hz]; exact lt_irrefl 0)]
    · rw [if_neg hc]

/-- Positivity of the mean of the singleton history `[1]`. -/
theorem mean_singleton_one_pos : 0 < mean [1] := by
  simp only [mean]
  norm_num

/-- C3 witness: concrete histories `[2]` and `[1]`, 4 images, times 3
and 1. -/
theorem speedup_efficiency_formulas_witness :
    update_comparison_chart [2] [1] 4
      = some (mean [2] / mean [1], mean [2] / mean [1] / ((4 : ℕ) : ℚ) * 100) ∧
    update_metrics 3 1 = some (3 / 1, 3 / 1 / 4 * 100) ∧
    update_metrics 2 (1/2) = some (4, 100) ∧
    (∀ q : ℚ, update_metrics q 0 = none) ∧
    (∀ l : List ℚ, ∀ m2 : ℕ, update_comparison_chart [] l m2 = none ∧
      update_comparison_chart l [] m2 = none) ∧
    (∀ l1 l2 : List ℚ, ∀ m2 : ℕ, mean l2 = 0 →
      update_comparison_chart l1 l2 m2 = none) :=
  speedup_efficiency_formulas [2] [1] 4 3 1 (by decide) (by decide)
    mean_singleton_one_pos (by decide) one_pos

end PhotoFilter
